import Mathlib

/-!
Verification of the subsai web UI core (`src/subsai/webui.py` and
`src/subsai/configs.py`) against its natural-language specification.

The embedding models the Python session-state values that flow through the
config UI as a closed value type `PyVal` (Python floats are modelled as
rationals), the config schemas as association lists of `ParamSpec`, and the
coercion routine `_get_config_from_session_state` as a structurally recursive
function over the schema.  The streamlit decorators `st.cache_data` and
`st.cache_resource` are embedded as explicit argument-keyed caches.
-/

namespace Subsai

/-- Python runtime values appearing in the streamlit session state: strings
from text inputs, ints and floats from number inputs, booleans from
checkboxes, and the Python value None.  Python floats are modelled as
rationals. -/
inductive PyVal where
  | none : PyVal
  | str : String → PyVal
  | int : Int → PyVal
  | float : Rat → PyVal
  | bool : Bool → PyVal
deriving DecidableEq, Repr

/-- Type tags used in `config_schema` dictionaries: the Python classes
`str`, `int`, `float`, `bool` and `list` compared against in
`_config_ui` and `_get_config_from_session_state`. -/
inductive CType where
  | str : CType
  | int : CType
  | float : CType
  | bool : CType
  | list : CType
deriving DecidableEq, Repr

/-- One entry of a `config_schema` dictionary as in `configs.py`: a type
tag, the allowed `options` (used only for `list`-typed, i.e.
enumerated-choice, parameters) and a `default` value. -/
structure ParamSpec where
  type : CType
  options : List PyVal
  default : PyVal
deriving DecidableEq, Repr

/-- Ordered schema: Python dicts preserve insertion order, so a schema is an
association list of parameter name to spec. -/
abbrev Schema := List (String × ParamSpec)

/-- Resolved config: the dict built by `_get_config_from_session_state`. -/
abbrev CfgList := List (String × PyVal)

/-- Numeric value of a nonempty list of decimal digits. -/
def digitsVal (cs : List Char) : Nat :=
  cs.foldl (fun acc c => acc * 10 + (c.toNat - Char.toNat (Char.ofNat 48))) 0

/-- Unsigned integer literal: a nonempty run of decimal digits. -/
def pyIntCore (cs : List Char) : Option Int :=
  if cs ≠ [] ∧ cs.all Char.isDigit then some ((digitsVal cs : Int)) else Option.none

/-- Model of the Python conversion int applied to a string: an optional sign
followed by decimal digits (the common literal subset). -/
def pyIntOfString (s : String) : Option Int :=
  match s.toList with
  | [] => Option.none
  | c :: cs =>
    if c = Char.ofNat 45 then (pyIntCore cs).map (fun n => -n)
    else if c = Char.ofNat 43 then pyIntCore cs
    else pyIntCore (c :: cs)

/-- Unsigned decimal literal with an optional fractional part, as accepted by
the Python conversion float (the common literal subset: digits, optionally
followed by a point and digits, at least one digit overall). -/
def pyFloatCore (cs : List Char) : Option Rat :=
  let ip := cs.takeWhile Char.isDigit
  match cs.dropWhile Char.isDigit with
  | [] => if ip = [] then Option.none else some ((digitsVal ip : Rat))
  | c :: fp =>
    if c = Char.ofNat 46 ∧ fp.all Char.isDigit ∧ (ip ≠ [] ∨ fp ≠ []) then
      some ((digitsVal ip : Rat) + (digitsVal fp : Rat) / ((10 : Rat) ^ fp.length))
    else Option.none

/-- Model of the Python conversion float applied to a string: optional sign,
then an unsigned decimal literal. -/
def pyFloatOfString (s : String) : Option Rat :=
  match s.toList with
  | [] => Option.none
  | c :: cs =>
    if c = Char.ofNat 45 then (pyFloatCore cs).map (fun q => -q)
    else if c = Char.ofNat 43 then pyFloatCore cs
    else pyFloatCore (c :: cs)

/-- Truncation toward zero, as the Python conversion int performs on floats. -/
def ratTrunc (q : Rat) : Int :=
  if q < 0 then -(Rat.floor (-q)) else Rat.floor q

/-- Model of the Python builtin float applied to a session-state value:
strings are parsed, numbers pass through, booleans become 0 or 1, and None
raises a TypeError. -/
def pyFloat : PyVal → Except String PyVal
  | PyVal.str s =>
    match pyFloatOfString s with
    | some q => Except.ok (PyVal.float q)
    | Option.none => Except.error ("could not convert string to float: " ++ s)
  | PyVal.int n => Except.ok (PyVal.float (n : Rat))
  | PyVal.float q => Except.ok (PyVal.float q)
  | PyVal.bool b => Except.ok (PyVal.float (if b then 1 else 0))
  | PyVal.none => Except.error "float argument must be a string or a real number, not NoneType"

/-- Model of the Python builtin int applied to a session-state value:
strings are parsed as integer literals, ints pass through, floats truncate
toward zero, booleans become 0 or 1, and None raises a TypeError. -/
def pyInt : PyVal → Except String PyVal
  | PyVal.str s =>
    match pyIntOfString s with
    | some n => Except.ok (PyVal.int n)
    | Option.none => Except.error ("invalid literal for int with base 10: " ++ s)
  | PyVal.int n => Except.ok (PyVal.int n)
  | PyVal.float q => Except.ok (PyVal.int (ratTrunc q))
  | PyVal.bool b => Except.ok (PyVal.int (if b then 1 else 0))
  | PyVal.none => Except.error "int argument must be a string or a number, not NoneType"

/-- Embedding of `_get_key` from webui.py: the session-state key of a config
widget is the model name and the config name joined by a hyphen. -/
def _get_key (model_name : String) (config_name : String) : String :=
  model_name ++ "-" ++ config_name

/-- Session state restricted to what the coercion reads: an association list
from widget key to stored value; `st.session_state[key]` is the first
binding, a missing key raising KeyError (modelled as `Option.none`). -/
abbrev SessionVals := List (String × PyVal)

/-- Dictionary lookup in the session state. -/
def sessionLookup (state : SessionVals) (k : String) : Option PyVal :=
  (state.find? (fun p => decide (p.1 = k))).map (fun p => p.2)

/-- Per-parameter body of the loop in `_get_config_from_session_state`: for a
`str`-typed parameter the strings None and the empty string become the
Python value None and everything else passes through; for `float` and `int`
the same two strings become None and any other value goes through the
respective Python conversion; `bool` and `list` typed values are used
as-is (the source has no branch for them). -/
def coerceParam (spec : ParamSpec) (value : PyVal) : Except String PyVal :=
  match spec.type with
  | CType.str =>
    if value = PyVal.str "None" ∨ value = PyVal.str "" then Except.ok PyVal.none
    else Except.ok value
  | CType.float =>
    if value = PyVal.str "None" ∨ value = PyVal.str "" then Except.ok PyVal.none
    else pyFloat value
  | CType.int =>
    if value = PyVal.str "None" ∨ value = PyVal.str "" then Except.ok PyVal.none
    else pyInt value
  | CType.bool => Except.ok value
  | CType.list => Except.ok value

/-- Loop of `_get_config_from_session_state`: walk the schema in order; a
missing session key is skipped (the KeyError handler passes); a coercion
failure aborts the whole call with the notification message and no dict is
returned; otherwise the coerced value is appended to the accumulated dict. -/
def configLoop (model_name : String) (schema : Schema) (state : SessionVals)
    (acc : CfgList) : Except String CfgList :=
  match schema with
  | [] => Except.ok acc
  | (config_name, spec) :: rest =>
    match sessionLookup state (_get_key model_name config_name) with
    | Option.none => configLoop model_name rest state acc
    | some v =>
      match coerceParam spec v with
      | Except.ok w => configLoop model_name rest state (acc ++ [(config_name, w)])
      | Except.error e => Except.error ("Problem parsing configs!! \n " ++ e)

/-- Embedding of `_get_config_from_session_state` from webui.py.  The Python
function returns the config dict, or None after posting an error message;
here the error branch carries the message. -/
def _get_config_from_session_state (model_name : String) (schema : Schema)
    (state : SessionVals) : Except String CfgList :=
  configLoop model_name schema state []

/-- Success flag of an `Except` result. -/
def isOkE {ε α : Type} : Except ε α → Bool
  | Except.ok _ => true
  | Except.error _ => false

/-- Record of the arguments the transcribe branch of `webui` hands to
`_transcribe`. -/
structure TranscribeArgs where
  file_path : String
  model_name : String
  model_config : Option CfgList
deriving DecidableEq, Repr

/-- Embedding of the transcribe-button branch of `webui` (webui.py): the
config is resolved from the session state for the fixed model openai/whisper
and the result — the dict on success, the Python value None after a parse
failure — is passed to `_transcribe` unconditionally.  The schema is a
parameter because `SubsAI.config_schema` lives outside this snapshot. -/
def webuiTranscribeArgs (file_path : String) (schema : Schema)
    (state : SessionVals) : TranscribeArgs :=
  { file_path := file_path
    model_name := "openai/whisper"
    model_config :=
      match _get_config_from_session_state "openai/whisper" schema state with
      | Except.ok c => some c
      | Except.error _ => Option.none }

/-- Modelled from the spec: the config schema of the openai/whisper model is
declared in `subsai/models/whisper_model.py`, which is not part of this
snapshot; section 8 of the spec gives its `model_type` parameter as
enumerated-choice over the options tiny, base and small with default base. -/
def whisperModelTypeSchema : Schema :=
  [("model_type",
    ⟨CType.list, [PyVal.str "tiny", PyVal.str "base", PyVal.str "small"],
      PyVal.str "base"⟩)]

/-- One subtitle event as stored by pysubs2: start and end times in
milliseconds and a text; the end field is named stop here because end is a
reserved word. -/
structure SubEntry where
  start : Nat
  stop : Nat
  text : String
deriving DecidableEq, Repr

/-- Slice of the streamlit session state the subtitle operations touch: the
active document under the key transcribed_subs and the one-level backup
under original_subs; a missing key is `Option.none`. -/
structure SessionState where
  transcribed_subs : Option (List SubEntry)
  original_subs : Option (List SubEntry)
deriving DecidableEq, Repr

/-- Embedding of the google-translate branch of `webui`: with no transcribed
document the branch only posts an error; otherwise the translated document
becomes the active one and the previous active document is stored as the
original backup. -/
def translateStep (translate : List SubEntry → List SubEntry)
    (st : SessionState) : SessionState :=
  match st.transcribed_subs with
  | some d =>
    { transcribed_subs := some (translate d), original_subs := some d }
  | Option.none => st

/-- Embedding of the reload-original-subtitles branch of `webui`: when a
backup exists it becomes the active document again, otherwise only an error
is posted. -/
def reloadStep (st : SessionState) : SessionState :=
  match st.original_subs with
  | some d => { st with transcribed_subs := some d }
  | Option.none => st

/-- Document-level edit of the grid branch of `webui`: assigning to the text
field of the entry at a row index; an out-of-range index raises, modelled as
`Option.none`. -/
def edit_sub_text (doc : List SubEntry) (i : Nat) (newText : String) :
    Option (List SubEntry) :=
  match doc[i]? with
  | some e => some (doc.set i ⟨e.start, e.stop, newText⟩)
  | Option.none => Option.none

/-- Session-level edit of the grid branch of `webui`: on success the edited
document is stored back under transcribed_subs; the raising cases are caught
and leave the session state unchanged. -/
def editStep (st : SessionState) (i : Nat) (newText : String) : SessionState :=
  match st.transcribed_subs with
  | some doc =>
    match edit_sub_text doc i newText with
    | some doc2 => { st with transcribed_subs := some doc2 }
    | Option.none => st
  | Option.none => st

/-- Modelled from the spec: the streamlit decorator `st.cache_data` applied
to `_transcribe` memoizes the call by its argument tuple — for identical
argument tuples the stored result is returned without running the body, and
a new tuple runs the body once and stores the result.  The cache is an
association list from key to result. -/
structure StCache (κ : Type) (α : Type) where
  entries : List (κ × α)

/-- Memoized call: on a hit the stored value is returned and the body does
not run; on a miss the body runs once and its result is stored.  The third
component counts how many times the body ran during this call. -/
def cacheCall {κ α : Type} [DecidableEq κ] (body : κ → α) (c : StCache κ α)
    (k : κ) : α × StCache κ α × Nat :=
  match (c.entries.find? (fun p => decide (p.1 = k))).map (fun p => p.2) with
  | some v => (v, c, 0)
  | Option.none => (body k, ⟨c.entries ++ [(k, body k)]⟩, 1)

/-- Key of the `_transcribe` cache: the media file path, the model name and
the config dict (the Python value None — here `Option.none` — after a
failed coercion). -/
abbrev TKey := String × String × Option CfgList

/-- Embedding of the decorated `_transcribe` from webui.py.  The body,
`SubsAI.create_model` followed by `SubsAI.transcribe`, lives outside this
snapshot and is passed as an abstract function. -/
def _transcribe {α : Type}
    (runTranscription : String → String → Option CfgList → α)
    (c : StCache TKey α) (file_path : String) (model_name : String)
    (model_config : Option CfgList) : α × StCache TKey α × Nat :=
  cacheCall (fun k => runTranscription k.1 k.2.1 k.2.2) c
    (file_path, model_name, model_config)

/-- Modelled from the spec: the streamlit decorator `st.cache_resource`
applied to `_create_translation_model` memoizes the constructed translation
backend per model name.  An instance is identified by the name it was built
for together with a creation index, so distinct constructions are
distinguishable; `inits` counts the constructions performed so far. -/
structure TMCache where
  entries : List (String × (String × Nat))
  inits : Nat

/-- Cache lookup by model name. -/
def tmLookup (c : TMCache) (x : String) : Option (String × Nat) :=
  (c.entries.find? (fun p => decide (p.1 = x))).map (fun p => p.2)

/-- Embedding of the decorated `_create_translation_model` from webui.py:
a hit returns the stored backend instance without constructing anything; a
miss constructs a fresh instance (body `tools.create_translation_model`,
outside this snapshot, abstracted to the instance identity) and stores it. -/
def _create_translation_model (c : TMCache) (model_name : String) :
    (String × Nat) × TMCache :=
  match tmLookup c model_name with
  | some m => (m, c)
  | Option.none =>
    ((model_name, c.inits),
      ⟨c.entries ++ [(model_name, (model_name, c.inits))], c.inits + 1⟩)

/-- Sequence of accessor calls, returning the final cache and the list of
(requested name, returned instance) pairs in call order. -/
def runTMCalls (c : TMCache) :
    List String → TMCache × List (String × (String × Nat))
  | [] => (c, [])
  | n :: rest =>
    let r := _create_translation_model c n
    let rr := runTMCalls r.2 rest
    (rr.1, (n, r.1) :: rr.2)

/-- Instances returned by the calls that requested the name x. -/
def tmResultsFor (x : String) (rs : List (String × (String × Nat))) :
    List (String × Nat) :=
  (rs.filter (fun p => decide (p.1 = x))).map (fun p => p.2)

/-- Cache entries stored under the name x. -/
def tmEntriesFor (x : String) (c : TMCache) : List (String × (String × Nat)) :=
  c.entries.filter (fun p => decide (p.1 = x))

/-- Demonstration transcription body used by the claim C1 witness. -/
def demoRun : String → String → Option CfgList → Nat := fun _ _ _ => 7

/-- Session state obtained by feeding a resolved config back as raw widget
values: each parameter is stored under its `_get_key` session key. -/
def stateOf (m : String) (c : CfgList) : SessionVals :=
  c.map (fun p => (_get_key m p.1, p.2))

/-- Closed form of the dict built by a successful `configLoop` run: the
schema parameters present in the session state, each with its coerced
value, in schema order. -/
def coerceOut (m : String) (schema : Schema) (state : SessionVals) : CfgList :=
  schema.filterMap (fun p =>
    match sessionLookup state (_get_key m p.1) with
    | some v =>
      match coerceParam p.2 v with
      | Except.ok w => some (p.1, w)
      | Except.error _ => Option.none
    | Option.none => Option.none)

/-- Decidable well-typedness of the raw value stored for one parameter: if
the parameter is present its value coerces successfully, and a numeric
parameter does not hold one of the two strings that normalize to the Python
value None (re-coercing that None would raise in the Python conversion). -/
def wellTypedAt (m : String) (state : SessionVals) (p : String × ParamSpec) :
    Bool :=
  match sessionLookup state (_get_key m p.1) with
  | some v =>
    isOkE (coerceParam p.2 v) &&
      (!(decide (p.2.type = CType.int ∨ p.2.type = CType.float)) ||
        !(decide (v = PyVal.str "None" ∨ v = PyVal.str "")))
  | Option.none => true

/-- Demonstration schema exercising every parameter type, used by the claim
C6 witness. -/
def demoSchema : Schema :=
  [("model_type",
    ⟨CType.list, [PyVal.str "tiny", PyVal.str "base", PyVal.str "small"],
      PyVal.str "base"⟩),
   ("device", ⟨CType.str, [], PyVal.none⟩),
   ("temperature", ⟨CType.float, [], PyVal.none⟩),
   ("beam_size", ⟨CType.int, [], PyVal.none⟩),
   ("verbose", ⟨CType.bool, [], PyVal.bool false⟩)]

/-- Demonstration raw session values for `demoSchema`, used by the claim C6
witness. -/
def demoState : SessionVals :=
  [("m-model_type", PyVal.str "base"),
   ("m-device", PyVal.str "cuda"),
   ("m-temperature", PyVal.str "0.5"),
   ("m-beam_size", PyVal.int 5),
   ("m-verbose", PyVal.bool true)]

/-- Demonstration document used by concrete witnesses. -/
def demoDoc : List SubEntry :=
  [⟨0, 1000, "hello"⟩, ⟨1500, 2000, "world"⟩, ⟨2500, 3000, "again"⟩]

/-- Demonstration translation used by concrete witnesses. -/
def demoTranslate : List SubEntry → List SubEntry :=
  fun d => d.map (fun e => ⟨e.start, e.stop, "translated"⟩)

end Subsai

namespace Subsai

/-- Keys of a resolved config produced by `configLoop`: the accumulated keys
followed by exactly those schema parameter names whose session key is
present; absent parameters are skipped by the KeyError handler. -/
theorem configLoop_keys (m : String) (state : SessionVals) :
    ∀ (schema : Schema) (acc c : CfgList),
      configLoop m schema state acc = Except.ok c →
      c.map Prod.fst =
        acc.map Prod.fst ++
          (schema.filter
            (fun p => (sessionLookup state (_get_key m p.1)).isSome)).map Prod.fst := by
  intro schema
  induction schema with
  | nil =>
    intro acc c h
    simp [configLoop] at h
    simp [h]
  | cons hd tl ih =>
    intro acc c h
    obtain ⟨config_name, spec⟩ := hd
    simp only [configLoop] at h
    cases hlook : sessionLookup state (_get_key m config_name) with
    | none =>
      rw [hlook] at h
      have := ih acc c h
      simp [List.filter, hlook, this]
    | some v =>
      rw [hlook] at h
      cases hco : coerceParam spec v with
      | ok w =>
        simp only [hco] at h
        have := ih (acc ++ [(config_name, w)]) c h
        simp [List.filter, hlook, this]
      | error e =>
        simp only [hco] at h
        exact absurd h (by simp)

/-- Claim C2 counterexample: coercing an empty raw input against a schema
declaring a text parameter `device` with default cpu yields the empty
resolved config; the parameter is skipped, not bound to its default. -/
theorem c2_counterexample_absent_param_skipped :
    _get_config_from_session_state "m"
        [("device", ⟨CType.str, [], PyVal.str "cpu"⟩)] [] = Except.ok [] ∧
    ([] : CfgList) ≠ [("device", PyVal.str "cpu")] := by
  constructor
  · rfl
  · decide

/-- Claim C2 as amended: a schema parameter whose name is absent from the raw
session-state input is omitted from the resolved config (it is not bound to
its schema default); the resolved config binds exactly the schema parameters
whose session key is present, in schema order. -/
theorem c2_absent_params_omitted (m : String) (schema : Schema)
    (state : SessionVals) (c : CfgList)
    (h : _get_config_from_session_state m schema state = Except.ok c) :
    c.map Prod.fst =
      (schema.filter
        (fun p => (sessionLookup state (_get_key m p.1)).isSome)).map Prod.fst := by
  have := configLoop_keys m state schema [] c h
  simpa using this

/-- Claim C2 witness: concrete run of the amended theorem; the schema has two
parameters, only one is present in the session state, and the resolved
config carries exactly that one. -/
theorem c2_absent_params_omitted_witness :
    ([("model_type", PyVal.str "base")] : CfgList).map Prod.fst =
      (([("model_type", ⟨CType.list, [PyVal.str "base"], PyVal.str "base"⟩),
         ("device", ⟨CType.str, [], PyVal.none⟩)] : Schema).filter
        (fun p =>
          (sessionLookup [("m-model_type", PyVal.str "base")]
            (_get_key "m" p.1)).isSome)).map Prod.fst :=
  c2_absent_params_omitted "m"
    [("model_type", ⟨CType.list, [PyVal.str "base"], PyVal.str "base"⟩),
     ("device", ⟨CType.str, [], PyVal.none⟩)]
    [("m-model_type", PyVal.str "base")]
    [("model_type", PyVal.str "base")] (by rfl)

/-- Claim C5: per-parameter coercion of present raw values; for text
parameters the strings None and the empty string normalize to the Python
value None and any other string passes through unchanged; for integer and
real parameters those two strings normalize to None and any other value is
handed to the respective Python numeric conversion. -/
theorem c5_present_value_coercion (sp : ParamSpec) (s : String) (v : PyVal)
    (hs1 : s ≠ "None") (hs2 : s ≠ "")
    (hv1 : v ≠ PyVal.str "None") (hv2 : v ≠ PyVal.str "") :
    (sp.type = CType.str →
      coerceParam sp (PyVal.str "") = Except.ok PyVal.none ∧
      coerceParam sp (PyVal.str "None") = Except.ok PyVal.none ∧
      coerceParam sp (PyVal.str s) = Except.ok (PyVal.str s)) ∧
    (sp.type = CType.float →
      coerceParam sp (PyVal.str "") = Except.ok PyVal.none ∧
      coerceParam sp (PyVal.str "None") = Except.ok PyVal.none ∧
      coerceParam sp v = pyFloat v) ∧
    (sp.type = CType.int →
      coerceParam sp (PyVal.str "") = Except.ok PyVal.none ∧
      coerceParam sp (PyVal.str "None") = Except.ok PyVal.none ∧
      coerceParam sp v = pyInt v) := by
  refine ⟨fun h => ?_, fun h => ?_, fun h => ?_⟩ <;>
    simp [coerceParam, h, hs1, hs2, hv1, hv2]

/-- Claim C5 witness: the theorem applied at a text parameter with the string
cpu, a real parameter with the string 1.5, and an integer parameter with the
string None. -/
theorem c5_present_value_coercion_witness :
    coerceParam ⟨CType.str, [], PyVal.none⟩ (PyVal.str "cpu")
        = Except.ok (PyVal.str "cpu") ∧
    coerceParam ⟨CType.float, [], PyVal.none⟩ (PyVal.str "1.5")
        = pyFloat (PyVal.str "1.5") ∧
    coerceParam ⟨CType.int, [], PyVal.none⟩ (PyVal.str "None")
        = Except.ok PyVal.none :=
  ⟨((c5_present_value_coercion ⟨CType.str, [], PyVal.none⟩ "cpu" PyVal.none
      (by decide) (by decide) (by decide) (by decide)).1 rfl).2.2,
   ((c5_present_value_coercion ⟨CType.float, [], PyVal.none⟩ "x"
      (PyVal.str "1.5") (by decide) (by decide) (by decide) (by decide)).2.1
        rfl).2.2,
   ((c5_present_value_coercion ⟨CType.int, [], PyVal.none⟩ "x"
      (PyVal.str "7") (by decide) (by decide) (by decide) (by decide)).2.2
        rfl).2.1⟩

/-- Step equation: a parameter whose session key is missing is skipped. -/
theorem configLoop_cons_skip (m : String) (state : SessionVals) (n0 : String)
    (sp0 : ParamSpec) (tl : Schema) (acc : CfgList)
    (h : sessionLookup state (_get_key m n0) = Option.none) :
    configLoop m ((n0, sp0) :: tl) state acc = configLoop m tl state acc := by
  simp [configLoop, h]

/-- Step equation: a present parameter that coerces successfully is appended
to the accumulated dict. -/
theorem configLoop_cons_ok (m : String) (state : SessionVals) (n0 : String)
    (sp0 : ParamSpec) (tl : Schema) (acc : CfgList) (v w : PyVal)
    (h : sessionLookup state (_get_key m n0) = some v)
    (hco : coerceParam sp0 v = Except.ok w) :
    configLoop m ((n0, sp0) :: tl) state acc
      = configLoop m tl state (acc ++ [(n0, w)]) := by
  simp [configLoop, h, hco]

/-- Step equation: a present parameter whose coercion fails aborts the call
with the notification message. -/
theorem configLoop_cons_err (m : String) (state : SessionVals) (n0 : String)
    (sp0 : ParamSpec) (tl : Schema) (acc : CfgList) (v : PyVal) (e : String)
    (h : sessionLookup state (_get_key m n0) = some v)
    (hco : coerceParam sp0 v = Except.error e) :
    configLoop m ((n0, sp0) :: tl) state acc
      = Except.error ("Problem parsing configs!! \n " ++ e) := by
  simp [configLoop, h, hco]

/-- Failure of one parameter coercion makes the whole `configLoop` call fail,
regardless of the accumulated dict. -/
theorem configLoop_fails_of_param_failure (m : String) (state : SessionVals)
    (name : String) (sp : ParamSpec) (v : PyVal)
    (hlook : sessionLookup state (_get_key m name) = some v)
    (hfail : isOkE (coerceParam sp v) = false) :
    ∀ (schema : Schema) (acc : CfgList), (name, sp) ∈ schema →
      isOkE (configLoop m schema state acc) = false := by
  intro schema
  induction schema with
  | nil => intro acc hmem; cases hmem
  | cons hd tl ih =>
    intro acc hmem
    obtain ⟨n0, sp0⟩ := hd
    cases hlook0 : sessionLookup state (_get_key m n0) with
    | none =>
      rcases List.mem_cons.mp hmem with heq | htl
      · rw [Prod.mk.injEq] at heq
        rw [heq.1] at hlook
        rw [hlook] at hlook0
        cases hlook0
      · rw [configLoop_cons_skip m state n0 sp0 tl acc hlook0]
        exact ih acc htl
    | some v0 =>
      cases hco : coerceParam sp0 v0 with
      | ok w =>
        rcases List.mem_cons.mp hmem with heq | htl
        · rw [Prod.mk.injEq] at heq
          rw [heq.1] at hlook
          rw [hlook] at hlook0
          injection hlook0 with hv
          rw [heq.2, hv] at hfail
          rw [hco] at hfail
          cases hfail
        · rw [configLoop_cons_ok m state n0 sp0 tl acc v0 w hlook0 hco]
          exact ih (acc ++ [(n0, w)]) htl
      | error e =>
        rw [configLoop_cons_err m state n0 sp0 tl acc v0 e hlook0 hco]
        rfl

/-- Claim C3 counterexample: with a real-typed parameter temperature whose
raw session value is the unparseable string abc, the coercion call fails,
yet the transcribe branch of `webui` still calls `_transcribe`, handing it
the failed config (the Python value None) — refuting the claim that no
config is handed on to model instantiation. -/
theorem c3_counterexample_failed_config_handed_on :
    webuiTranscribeArgs "file.mp4"
        [("temperature", ⟨CType.float, [], PyVal.none⟩)]
        [("openai/whisper-temperature", PyVal.str "abc")]
      = ⟨"file.mp4", "openai/whisper", Option.none⟩ ∧
    _get_config_from_session_state "openai/whisper"
        [("temperature", ⟨CType.float, [], PyVal.none⟩)]
        [("openai/whisper-temperature", PyVal.str "abc")]
      = Except.error
          "Problem parsing configs!! \n could not convert string to float: abc" := by
  exact ⟨rfl, rfl⟩

/-- Claim C3 as amended: when some parameter present in the raw input fails
its type coercion, the whole coercion call fails — no resolved config is
produced and no partially coerced mapping is observable (the function
returns only an error message, which carries the raw exception text, not
necessarily the parameter name) — but the transcribe branch of `webui`
nonetheless invokes `_transcribe`, passing the failed config as the Python
value None. -/
theorem c3_all_or_nothing_but_none_handed_on (schema : Schema)
    (state : SessionVals) (fp name : String) (sp : ParamSpec) (v : PyVal)
    (hmem : (name, sp) ∈ schema)
    (hlook : sessionLookup state (_get_key "openai/whisper" name) = some v)
    (hfail : isOkE (coerceParam sp v) = false) :
    isOkE (_get_config_from_session_state "openai/whisper" schema state)
        = false ∧
    (webuiTranscribeArgs fp schema state).model_config = Option.none := by
  have herr :
      isOkE (configLoop "openai/whisper" schema state []) = false :=
    configLoop_fails_of_param_failure "openai/whisper" state name sp v
      hlook hfail schema [] hmem
  refine ⟨herr, ?_⟩
  unfold webuiTranscribeArgs
  unfold _get_config_from_session_state
  cases hres : configLoop "openai/whisper" schema state [] with
  | ok c => rw [hres] at herr; cases herr
  | error e => simp [hres]

/-- Claim C3 witness: the amended theorem applied to the counterexample
schema and session state. -/
theorem c3_all_or_nothing_witness :
    isOkE (_get_config_from_session_state "openai/whisper"
        [("temperature", ⟨CType.float, [], PyVal.none⟩)]
        [("openai/whisper-temperature", PyVal.str "abc")]) = false ∧
    (webuiTranscribeArgs "file.mp4"
        [("temperature", ⟨CType.float, [], PyVal.none⟩)]
        [("openai/whisper-temperature", PyVal.str "abc")]).model_config
      = Option.none :=
  c3_all_or_nothing_but_none_handed_on
    [("temperature", ⟨CType.float, [], PyVal.none⟩)]
    [("openai/whisper-temperature", PyVal.str "abc")]
    "file.mp4" "temperature" ⟨CType.float, [], PyVal.none⟩
    (PyVal.str "abc") (by decide) (by rfl) (by rfl)

/-- Claim C4 counterexample: resolving the raw value giant for the
enumerated-choice parameter model_type of the whisper schema succeeds and
produces a resolved config containing giant, even though giant is not among
the declared options — refuting the claim that it must fail. -/
theorem c4_counterexample_invalid_option_accepted :
    _get_config_from_session_state "openai/whisper" whisperModelTypeSchema
        [("openai/whisper-model_type", PyVal.str "giant")]
      = Except.ok [("model_type", PyVal.str "giant")] ∧
    ¬ PyVal.str "giant" ∈
        (whisperModelTypeSchema.map (fun p => p.2.options)).flatten := by
  exact ⟨rfl, by decide⟩

/-- Claim C4 as amended: the coercion has no branch for enumerated-choice
(list-typed) parameters, so any raw value passes through unvalidated; the
membership in `options` is enforced only by the selection widget, not by
`_get_config_from_session_state`. -/
theorem c4_list_type_passes_through (sp : ParamSpec) (v : PyVal)
    (h : sp.type = CType.list) : coerceParam sp v = Except.ok v := by
  simp [coerceParam, h]

/-- Claim C4 witness: the amended theorem applied to the whisper model_type
parameter and the out-of-options raw value giant. -/
theorem c4_list_type_passes_through_witness :
    coerceParam
        ⟨CType.list, [PyVal.str "tiny", PyVal.str "base", PyVal.str "small"],
          PyVal.str "base"⟩ (PyVal.str "giant")
      = Except.ok (PyVal.str "giant") :=
  c4_list_type_passes_through
    ⟨CType.list, [PyVal.str "tiny", PyVal.str "base", PyVal.str "small"],
      PyVal.str "base"⟩ (PyVal.str "giant") rfl

/-- Claim C7: translating a session holding the transcribed document D makes
the translated document active while retaining D as the single-level
original backup, and the subsequent reload of the originals restores the
active document to exactly D. -/
theorem c7_translate_then_reload_restores
    (f : List SubEntry → List SubEntry) (st : SessionState)
    (D : List SubEntry) (h : st.transcribed_subs = some D) :
    (translateStep f st).transcribed_subs = some (f D) ∧
    (translateStep f st).original_subs = some D ∧
    (reloadStep (translateStep f st)).transcribed_subs = some D := by
  simp [translateStep, reloadStep, h]

/-- Claim C7 witness: the theorem at the demonstration document and
translation. -/
theorem c7_translate_then_reload_restores_witness :
    (translateStep demoTranslate ⟨some demoDoc, Option.none⟩).transcribed_subs
        = some (demoTranslate demoDoc) ∧
    (translateStep demoTranslate ⟨some demoDoc, Option.none⟩).original_subs
        = some demoDoc ∧
    (reloadStep (translateStep demoTranslate
        ⟨some demoDoc, Option.none⟩)).transcribed_subs = some demoDoc :=
  c7_translate_then_reload_restores demoTranslate
    ⟨some demoDoc, Option.none⟩ demoDoc rfl

/-- Claim C8: editing the text of the entry at an in-bounds index yields the
document whose entry at that index keeps its start and stop times with the
new text, every other entry being literally the original prefix and suffix;
an out-of-bounds index makes the edit fail and leaves the session state
unchanged. -/
theorem c8_edit_text_swaps_only_text (doc : List SubEntry) (i : Nat)
    (t : String) (e : SubEntry) (orig : Option (List SubEntry)) :
    (doc[i]? = some e →
      edit_sub_text doc i t
        = some (doc.take i ++ ⟨e.start, e.stop, t⟩ :: doc.drop (i + 1))) ∧
    (doc.length ≤ i →
      edit_sub_text doc i t = Option.none ∧
      editStep ⟨some doc, orig⟩ i t = ⟨some doc, orig⟩) := by
  constructor
  · intro h
    have hlt : i < doc.length := (List.getElem?_eq_some.mp h).1
    unfold edit_sub_text
    simp only [h]
    rw [List.set_eq_take_append_cons_drop, if_pos hlt]
  · intro h
    have hnone : doc[i]? = Option.none := List.getElem?_eq_none h
    constructor
    · unfold edit_sub_text
      simp only [hnone]
    · unfold editStep edit_sub_text
      simp [hnone]

/-- Claim C8 witness: the theorem at the demonstration document, once at the
in-bounds index 1 and once at the out-of-bounds index 5. -/
theorem c8_edit_text_swaps_only_text_witness :
    edit_sub_text demoDoc 1 "edited"
        = some (demoDoc.take 1 ++ ⟨1500, 2000, "edited"⟩ :: demoDoc.drop 2) ∧
    edit_sub_text demoDoc 5 "edited" = Option.none ∧
    editStep ⟨some demoDoc, Option.none⟩ 5 "edited"
        = ⟨some demoDoc, Option.none⟩ :=
  ⟨(c8_edit_text_swaps_only_text demoDoc 1 "edited" ⟨1500, 2000, "world"⟩
      Option.none).1 rfl,
   (c8_edit_text_swaps_only_text demoDoc 5 "edited" ⟨0, 0, ""⟩
      Option.none).2 (by decide)⟩

/-- Claim C1: from an empty cache, the first `_transcribe` call with a triple
of media path, model name and config runs the underlying transcription and
returns its result; a second call with a structurally equal triple returns a
result equal to the first while running the transcription zero further
times (so it ran exactly once across both calls); a further call with a
different config for the same media and model runs it again. -/
theorem c1_transcribe_memoized {α : Type}
    (run : String → String → Option CfgList → α) (fp mn : String)
    (cfg cfg2 : Option CfgList) (h : cfg ≠ cfg2) :
    (_transcribe run ⟨[]⟩ fp mn cfg).1 = run fp mn cfg ∧
    (_transcribe run ⟨[]⟩ fp mn cfg).2.2 = 1 ∧
    (_transcribe run (_transcribe run ⟨[]⟩ fp mn cfg).2.1 fp mn cfg).1
        = (_transcribe run ⟨[]⟩ fp mn cfg).1 ∧
    (_transcribe run (_transcribe run ⟨[]⟩ fp mn cfg).2.1 fp mn cfg).2.2
        = 0 ∧
    (_transcribe run (_transcribe run ⟨[]⟩ fp mn cfg).2.1 fp mn cfg2).2.2
        = 1 := by
  simp [_transcribe, cacheCall, List.find?, h]

/-- Claim C1 witness: the theorem at the demonstration body, the empty config
dict as first config and the Python value None as the second. -/
theorem c1_transcribe_memoized_witness :
    (_transcribe demoRun ⟨[]⟩ "a.mp4" "openai/whisper"
        (some ([] : CfgList))).1
      = demoRun "a.mp4" "openai/whisper" (some ([] : CfgList)) ∧
    (_transcribe demoRun ⟨[]⟩ "a.mp4" "openai/whisper"
        (some ([] : CfgList))).2.2 = 1 ∧
    (_transcribe demoRun
        (_transcribe demoRun ⟨[]⟩ "a.mp4" "openai/whisper"
          (some ([] : CfgList))).2.1 "a.mp4" "openai/whisper"
        (some ([] : CfgList))).1
      = (_transcribe demoRun ⟨[]⟩ "a.mp4" "openai/whisper"
          (some ([] : CfgList))).1 ∧
    (_transcribe demoRun
        (_transcribe demoRun ⟨[]⟩ "a.mp4" "openai/whisper"
          (some ([] : CfgList))).2.1 "a.mp4" "openai/whisper"
        (some ([] : CfgList))).2.2 = 0 ∧
    (_transcribe demoRun
        (_transcribe demoRun ⟨[]⟩ "a.mp4" "openai/whisper"
          (some ([] : CfgList))).2.1 "a.mp4" "openai/whisper"
        Option.none).2.2 = 1 :=
  c1_transcribe_memoized demoRun "a.mp4" "openai/whisper"
    (some ([] : CfgList)) Option.none (by decide)

/-- Lookup under any other or the same name is preserved by a call. -/
theorem tm_step_lookup (c : TMCache) (y x : String) (m : String × Nat)
    (h : tmLookup c x = some m) :
    tmLookup (_create_translation_model c y).2 x = some m := by
  unfold _create_translation_model
  cases hy : tmLookup c y with
  | some m0 => simpa using h
  | none =>
    rcases hfind : c.entries.find? (fun p => decide (p.1 = x)) with _ | pr
    · rw [tmLookup, hfind] at h; cases h
    · rw [tmLookup, hfind] at h
      simp only [tmLookup, List.find?_append, hfind]
      simpa using h

/-- Entries stored under a name are untouched by calls for other names. -/
theorem tm_step_entriesFor (c : TMCache) (y x : String) (hy : y ≠ x) :
    tmEntriesFor x (_create_translation_model c y).2 = tmEntriesFor x c := by
  unfold _create_translation_model
  cases hy0 : tmLookup c y with
  | some m0 => simp
  | none => simp [tmEntriesFor, List.filter_append, hy]

/-- Once an entry for a name exists, every later call for it returns that
stored instance, the entry survives any interleaved calls, and no further
construction for that name happens. -/
theorem tm_run_cached (x : String) (m : String × Nat) :
    ∀ (ns : List String) (c : TMCache), tmLookup c x = some m →
      tmResultsFor x (runTMCalls c ns).2 = List.replicate (ns.count x) m ∧
      tmLookup (runTMCalls c ns).1 x = some m ∧
      tmEntriesFor x (runTMCalls c ns).1 = tmEntriesFor x c := by
  intro ns
  induction ns with
  | nil => intro c h; simp [runTMCalls, tmResultsFor, h]
  | cons n rest ih =>
    intro c h
    by_cases hx : n = x
    · subst hx
      have hstep : _create_translation_model c n = (m, c) := by
        unfold _create_translation_model
        simp [h]
      obtain ⟨h1, h2, h3⟩ := ih c h
      refine ⟨?_, ?_, ?_⟩
      · simp [runTMCalls, hstep, tmResultsFor, List.count_cons_self,
          List.replicate_succ]
        simpa [tmResultsFor] using h1
      · simpa [runTMCalls, hstep] using h2
      · simpa [runTMCalls, hstep] using h3
    · have hlook2 : tmLookup (_create_translation_model c n).2 x = some m :=
        tm_step_lookup c n x m h
      have hent : tmEntriesFor x (_create_translation_model c n).2
          = tmEntriesFor x c := tm_step_entriesFor c n x hx
      have := ih (_create_translation_model c n).2 hlook2
      simp [runTMCalls, tmResultsFor, hx, List.count_cons] at this ⊢
      exact ⟨this.1, this.2.1, by rw [this.2.2, hent]⟩

/-- Claim C9: starting from a cache holding no backend for the identifier x,
the first accessor call constructs the instance (one construction, recorded
by the bumped creation counter), and over any subsequent sequence of calls
every call requesting x returns exactly that first instance while the cache
keeps a single entry for x — the backend for x is constructed at most
once. -/
theorem c9_translation_model_memoized (c : TMCache) (x : String)
    (ns : List String) (h : tmLookup c x = Option.none) :
    (_create_translation_model c x).1 = (x, c.inits) ∧
    (_create_translation_model c x).2.inits = c.inits + 1 ∧
    tmResultsFor x (runTMCalls (_create_translation_model c x).2 ns).2
        = List.replicate (ns.count x) (x, c.inits) ∧
    tmEntriesFor x (runTMCalls (_create_translation_model c x).2 ns).1
        = [(x, (x, c.inits))] := by
  have hfind : c.entries.find? (fun p => decide (p.1 = x)) = Option.none := by
    rcases hf : c.entries.find? (fun p => decide (p.1 = x)) with _ | pr
    · exact hf
    · rw [tmLookup, hf] at h; cases h
  have hstep : _create_translation_model c x
      = ((x, c.inits),
          ⟨c.entries ++ [(x, (x, c.inits))], c.inits + 1⟩) := by
    unfold _create_translation_model
    simp [h]
  have hlook2 : tmLookup
      (⟨c.entries ++ [(x, (x, c.inits))], c.inits + 1⟩ : TMCache) x
        = some (x, c.inits) := by
    simp [tmLookup, List.find?_append, hfind]
  have hent2 : tmEntriesFor x
      (⟨c.entries ++ [(x, (x, c.inits))], c.inits + 1⟩ : TMCache)
        = [(x, (x, c.inits))] := by
    have hnil : c.entries.filter (fun p => decide (p.1 = x)) = [] := by
      rw [List.filter_eq_nil_iff]
      intro a ha
      have := List.find?_eq_none.mp hfind a ha
      simpa using this
    simp [tmEntriesFor, List.filter_append, hnil]
  have hrun := tm_run_cached x (x, c.inits) ns _ hlook2
  refine ⟨by rw [hstep], by rw [hstep], ?_, ?_⟩
  · rw [hstep]; exact hrun.1
  · rw [hstep]; rw [hrun.2.2, hent2]

/-- Claim C9 witness: the theorem at the empty cache, the identifier
facebook/m2m100 and a call sequence requesting it twice more around another
identifier. -/
theorem c9_translation_model_memoized_witness :
    (_create_translation_model ⟨[], 0⟩ "facebook/m2m100").1
        = ("facebook/m2m100", 0) ∧
    (_create_translation_model ⟨[], 0⟩ "facebook/m2m100").2.inits = 0 + 1 ∧
    tmResultsFor "facebook/m2m100"
        (runTMCalls (_create_translation_model ⟨[], 0⟩ "facebook/m2m100").2
          ["facebook/m2m100", "other", "facebook/m2m100"]).2
      = List.replicate
          (["facebook/m2m100", "other", "facebook/m2m100"].count
            "facebook/m2m100") ("facebook/m2m100", 0) ∧
    tmEntriesFor "facebook/m2m100"
        (runTMCalls (_create_translation_model ⟨[], 0⟩ "facebook/m2m100").2
          ["facebook/m2m100", "other", "facebook/m2m100"]).1
      = [("facebook/m2m100", ("facebook/m2m100", 0))] :=
  c9_translation_model_memoized ⟨[], 0⟩ "facebook/m2m100"
    ["facebook/m2m100", "other", "facebook/m2m100"] rfl

/-- Keys built by `_get_key` for one model are injective in the parameter
name. -/
theorem get_key_inj (m a b : String) : _get_key m a = _get_key m b ↔ a = b := by
  constructor
  · intro h
    unfold _get_key at h
    apply String.ext
    have hd := congrArg String.data h
    rw [String.data_append, String.data_append] at hd
    exact List.append_cancel_left hd
  · intro h; rw [h]

/-- Looking a parameter key up in a fed-back resolved config finds the
binding stored for that parameter name. -/
theorem sessionLookup_stateOf (m n : String) (c : CfgList) :
    sessionLookup (stateOf m c) (_get_key m n)
      = (c.find? (fun p => decide (p.1 = n))).map (fun p => p.2) := by
  unfold sessionLookup stateOf
  rw [List.find?_map]
  have hpred : ((fun p : String × PyVal => decide (p.1 = _get_key m n)) ∘
      (fun p : String × PyVal => (_get_key m p.1, p.2)))
        = fun p : String × PyVal => decide (p.1 = n) := by
    funext p
    simp only [Function.comp]
    exact decide_eq_decide.mpr (get_key_inj m p.1 n)
  rw [hpred]
  cases c.find? (fun p : String × PyVal => decide (p.1 = n)) <;> rfl

/-- A successful Python float conversion always yields a float value. -/
theorem pyFloat_ok_shape (v w : PyVal) (h : pyFloat v = Except.ok w) :
    ∃ q, w = PyVal.float q := by
  cases v with
  | none => exact absurd h (by simp [pyFloat])
  | str s =>
    unfold pyFloat at h
    cases hp : pyFloatOfString s with
    | some q =>
      simp only [hp] at h
      injection h with hw
      exact ⟨q, hw.symm⟩
    | none =>
      simp only [hp] at h
      exact Except.noConfusion h
  | int n => injection h with hw; exact ⟨_, hw.symm⟩
  | float q => injection h with hw; exact ⟨q, hw.symm⟩
  | bool b => injection h with hw; exact ⟨_, hw.symm⟩

/-- A successful Python int conversion always yields an int value. -/
theorem pyInt_ok_shape (v w : PyVal) (h : pyInt v = Except.ok w) :
    ∃ k, w = PyVal.int k := by
  cases v with
  | none => exact absurd h (by simp [pyInt])
  | str s =>
    unfold pyInt at h
    cases hp : pyIntOfString s with
    | some k =>
      simp only [hp] at h
      injection h with hw
      exact ⟨k, hw.symm⟩
    | none =>
      simp only [hp] at h
      exact Except.noConfusion h
  | int n => injection h with hw; exact ⟨_, hw.symm⟩
  | float q => injection h with hw; exact ⟨_, hw.symm⟩
  | bool b => injection h with hw; exact ⟨_, hw.symm⟩

/-- Stability of per-parameter coercion: a value produced by a successful
coercion coerces to itself, provided a numeric raw value was not one of the
two strings normalizing to the Python value None (that None would raise in
the numeric conversion on the second pass). -/
theorem coerceParam_stable (sp : ParamSpec) (v w : PyVal)
    (hco : coerceParam sp v = Except.ok w)
    (hnum : (sp.type = CType.int ∨ sp.type = CType.float) →
      ¬(v = PyVal.str "None" ∨ v = PyVal.str "")) :
    coerceParam sp w = Except.ok w := by
  cases htype : sp.type with
  | str =>
    simp only [coerceParam, htype] at hco ⊢
    by_cases hn : v = PyVal.str "None" ∨ v = PyVal.str ""
    · rw [if_pos hn] at hco
      injection hco with hw
      subst hw
      simp
    · rw [if_neg hn] at hco
      injection hco with hw
      subst hw
      rw [if_neg hn]
  | float =>
    have hv := hnum (Or.inr htype)
    simp only [coerceParam, htype] at hco ⊢
    rw [if_neg hv] at hco
    obtain ⟨q, hq⟩ := pyFloat_ok_shape v w hco
    subst hq
    rw [if_neg (by simp)]
    rfl
  | int =>
    have hv := hnum (Or.inl htype)
    simp only [coerceParam, htype] at hco ⊢
    rw [if_neg hv] at hco
    obtain ⟨k, hk⟩ := pyInt_ok_shape v w hco
    subst hk
    rw [if_neg (by simp)]
    rfl
  | bool =>
    simp only [coerceParam, htype] at hco ⊢
  | list =>
    simp only [coerceParam, htype] at hco ⊢

/-- A value produced by a successful numeric coercion of a non-nullish raw
value is itself numeric, hence not one of the two nullish strings. -/
theorem coerceParam_ok_not_nullish (sp : ParamSpec) (v w : PyVal)
    (hco : coerceParam sp v = Except.ok w)
    (hv : ¬(v = PyVal.str "None" ∨ v = PyVal.str ""))
    (hty : sp.type = CType.int ∨ sp.type = CType.float) :
    ¬(w = PyVal.str "None" ∨ w = PyVal.str "") := by
  rcases hty with h | h
  · simp only [coerceParam, h] at hco
    rw [if_neg hv] at hco
    obtain ⟨k, hk⟩ := pyInt_ok_shape v w hco
    subst hk
    simp
  · simp only [coerceParam, h] at hco
    rw [if_neg hv] at hco
    obtain ⟨q, hq⟩ := pyFloat_ok_shape v w hco
    subst hq
    simp

/-- Step equation for the closed-form output: missing parameter. -/
theorem coerceOut_cons_none (m : String) (state : SessionVals) (n0 : String)
    (sp0 : ParamSpec) (tl : Schema)
    (h : sessionLookup state (_get_key m n0) = Option.none) :
    coerceOut m ((n0, sp0) :: tl) state = coerceOut m tl state := by
  simp [coerceOut, List.filterMap_cons, h]

/-- Step equation for the closed-form output: present parameter that coerces
successfully. -/
theorem coerceOut_cons_ok (m : String) (state : SessionVals) (n0 : String)
    (sp0 : ParamSpec) (tl : Schema) (v w : PyVal)
    (h : sessionLookup state (_get_key m n0) = some v)
    (hco : coerceParam sp0 v = Except.ok w) :
    coerceOut m ((n0, sp0) :: tl) state
      = (n0, w) :: coerceOut m tl state := by
  simp [coerceOut, List.filterMap_cons, h, hco]

/-- Step equation for the closed-form output: present parameter whose
coercion fails. -/
theorem coerceOut_cons_err (m : String) (state : SessionVals) (n0 : String)
    (sp0 : ParamSpec) (tl : Schema) (v : PyVal) (e : String)
    (h : sessionLookup state (_get_key m n0) = some v)
    (hco : coerceParam sp0 v = Except.error e) :
    coerceOut m ((n0, sp0) :: tl) state = coerceOut m tl state := by
  simp [coerceOut, List.filterMap_cons, h, hco]

/-- When every present parameter is well typed, `configLoop` succeeds and
returns the accumulated dict followed by the closed-form output. -/
theorem configLoop_ok_formula (m : String) (state : SessionVals) :
    ∀ (schema : Schema) (acc : CfgList),
      (∀ p ∈ schema, wellTypedAt m state p = true) →
      configLoop m schema state acc
        = Except.ok (acc ++ coerceOut m schema state) := by
  intro schema
  induction schema with
  | nil => intro acc _; simp [configLoop, coerceOut]
  | cons hd tl ih =>
    intro acc hall
    obtain ⟨n0, sp0⟩ := hd
    have hhd := hall (n0, sp0) (List.mem_cons_self _ _)
    have htl := fun p hp => hall p (List.mem_cons_of_mem _ hp)
    cases hlook : sessionLookup state (_get_key m n0) with
    | none =>
      rw [configLoop_cons_skip m state n0 sp0 tl acc hlook, ih acc htl,
        coerceOut_cons_none m state n0 sp0 tl hlook]
    | some v =>
      simp only [wellTypedAt, hlook] at hhd
      have hok0 : isOkE (coerceParam sp0 v) = true := by
        simp only [Bool.and_eq_true] at hhd
        exact hhd.1
      cases hco : coerceParam sp0 v with
      | error e => rw [hco] at hok0; cases hok0
      | ok w =>
        rw [configLoop_cons_ok m state n0 sp0 tl acc v w hlook hco,
          ih (acc ++ [(n0, w)]) htl,
          coerceOut_cons_ok m state n0 sp0 tl v w hlook hco]
        simp

/-- The names of the closed-form output are a sublist of the schema names. -/
theorem coerceOut_names_sublist (m : String) (state : SessionVals) :
    ∀ schema : Schema,
      ((coerceOut m schema state).map Prod.fst).Sublist
        (schema.map Prod.fst) := by
  intro schema
  induction schema with
  | nil => simp [coerceOut]
  | cons hd tl ih =>
    obtain ⟨n0, sp0⟩ := hd
    cases hlook : sessionLookup state (_get_key m n0) with
    | none =>
      rw [coerceOut_cons_none m state n0 sp0 tl hlook]
      exact List.Sublist.cons _ ih
    | some v =>
      cases hco : coerceParam sp0 v with
      | ok w =>
        rw [coerceOut_cons_ok m state n0 sp0 tl v w hlook hco]
        simp only [List.map_cons]
        exact List.Sublist.cons₂ _ ih
      | error e =>
        rw [coerceOut_cons_err m state n0 sp0 tl v e hlook hco]
        exact List.Sublist.cons _ ih

/-- A name not among the schema names has no binding in the closed-form
output. -/
theorem coerceOut_find?_eq_none (m : String) (state : SessionVals)
    (schema : Schema) (n : String) (hn : n ∉ schema.map Prod.fst) :
    (coerceOut m schema state).find? (fun p => decide (p.1 = n))
      = Option.none := by
  rw [List.find?_eq_none]
  intro p hp
  simp only [decide_eq_true_eq]
  intro he
  apply hn
  have hmem : p.1 ∈ (coerceOut m schema state).map Prod.fst :=
    List.mem_map_of_mem _ hp
  exact he ▸ (coerceOut_names_sublist m state schema).subset hmem

/-- Lookup of a schema parameter in the closed-form output, for schemas with
distinct parameter names: the binding is exactly the coerced value of the
raw value present in the session state, or absent when the raw value is. -/
theorem coerceOut_lookupName (m : String) (state : SessionVals) :
    ∀ (schema : Schema), (schema.map Prod.fst).Nodup →
      ∀ (n : String) (sp : ParamSpec), (n, sp) ∈ schema →
        ((coerceOut m schema state).find?
            (fun p => decide (p.1 = n))).map (fun p => p.2)
          = match sessionLookup state (_get_key m n) with
            | some v =>
              match coerceParam sp v with
              | Except.ok w => some w
              | Except.error _ => Option.none
            | Option.none => Option.none := by
  intro schema
  induction schema with
  | nil => intro _ n sp hmem; cases hmem
  | cons hd tl ih =>
    intro hnd n sp hmem
    obtain ⟨n0, sp0⟩ := hd
    have hnd0 : n0 ∉ tl.map Prod.fst := by
      simp only [List.map_cons, List.nodup_cons] at hnd
      exact hnd.1
    have hndtl : (tl.map Prod.fst).Nodup := by
      simp only [List.map_cons, List.nodup_cons] at hnd
      exact hnd.2
    rcases List.mem_cons.mp hmem with heq | htl
    · rw [Prod.mk.injEq] at heq
      obtain ⟨hn, hsp⟩ := heq
      subst hn
      subst hsp
      cases hlook : sessionLookup state (_get_key m n) with
      | none =>
        rw [coerceOut_cons_none m state n sp tl hlook,
          coerceOut_find?_eq_none m state tl n hnd0]
        simp [hlook]
      | some v =>
        cases hco : coerceParam sp v with
        | ok w =>
          rw [coerceOut_cons_ok m state n sp tl v w hlook hco]
          simp [List.find?_cons, hlook, hco]
        | error e =>
          rw [coerceOut_cons_err m state n sp tl v e hlook hco,
            coerceOut_find?_eq_none m state tl n hnd0]
          simp [hlook, hco]
    · have hne : n ≠ n0 := by
        intro hcontra
        apply hnd0
        rw [← hcontra]
        exact List.mem_map_of_mem Prod.fst htl
      cases hlook0 : sessionLookup state (_get_key m n0) with
      | none =>
        rw [coerceOut_cons_none m state n0 sp0 tl hlook0]
        exact ih hndtl n sp htl
      | some v0 =>
        cases hco0 : coerceParam sp0 v0 with
        | ok w0 =>
          rw [coerceOut_cons_ok m state n0 sp0 tl v0 w0 hlook0 hco0]
          rw [List.find?_cons]
          have : (decide ((n0, w0).1 = n)) = false := by
            simp [hne.symm]
          rw [this]
          exact ih hndtl n sp htl
        | error e0 =>
          rw [coerceOut_cons_err m state n0 sp0 tl v0 e0 hlook0 hco0]
          exact ih hndtl n sp htl

/-- Congruence for the closed-form output: two session states assigning the
same coercion outcome to every schema parameter produce the same output. -/
theorem coerceOut_congr (m : String) (schema : Schema) (s1 s2 : SessionVals)
    (h : ∀ p ∈ schema,
      (match sessionLookup s1 (_get_key m (Prod.fst p)) with
        | some v =>
          match coerceParam (Prod.snd p) v with
          | Except.ok w => some (Prod.fst p, w)
          | Except.error _ => Option.none
        | Option.none => Option.none)
      = (match sessionLookup s2 (_get_key m (Prod.fst p)) with
        | some v =>
          match coerceParam (Prod.snd p) v with
          | Except.ok w => some (Prod.fst p, w)
          | Except.error _ => Option.none
        | Option.none => Option.none)) :
    coerceOut m schema s1 = coerceOut m schema s2 := by
  unfold coerceOut
  exact List.filterMap_congr h

/-- Claim C6 counterexample: the raw mapping binding the real-typed parameter
temperature to the string None is well typed per the coercion rules — the
first coercion succeeds and normalizes it to the Python value None — but
feeding the resolved config back as raw input makes the second coercion
fail (the Python float conversion rejects None), so re-coercion does not
yield the same resolved config. -/
theorem c6_counterexample_null_numeric_not_idempotent :
    _get_config_from_session_state "m"
        [("temperature", ⟨CType.float, [], PyVal.none⟩)]
        [("m-temperature", PyVal.str "None")]
      = Except.ok [("temperature", PyVal.none)] ∧
    _get_config_from_session_state "m"
        [("temperature", ⟨CType.float, [], PyVal.none⟩)]
        (stateOf "m" [("temperature", PyVal.none)])
      = Except.error
          "Problem parsing configs!! \n float argument must be a string or a real number, not NoneType" :=
  ⟨rfl, rfl⟩

/-- Claim C6 as amended: for a schema with distinct parameter names and a raw
mapping in which every present parameter coerces successfully and no
integer- or real-typed parameter holds one of the two strings that
normalize to the null value, coercion succeeds, and coercing the resolved
config fed back as raw input succeeds and yields the same resolved config.
The original claim fails only on the excluded null-normalizing numeric raw
values, whose resolved null re-coerces through the raising Python numeric
conversion. -/
theorem c6_wellTyped_roundtrip (m : String) (schema : Schema)
    (state : SessionVals) (hnd : (schema.map Prod.fst).Nodup)
    (hok : ∀ p ∈ schema, wellTypedAt m state p = true) :
    _get_config_from_session_state m schema state
        = Except.ok (coerceOut m schema state) ∧
    _get_config_from_session_state m schema
        (stateOf m (coerceOut m schema state))
      = Except.ok (coerceOut m schema state) := by
  have hpart1 : _get_config_from_session_state m schema state
      = Except.ok (coerceOut m schema state) := by
    have := configLoop_ok_formula m state schema [] hok
    simpa [_get_config_from_session_state] using this
  refine ⟨hpart1, ?_⟩
  have hok2 : ∀ p ∈ schema,
      wellTypedAt m (stateOf m (coerceOut m schema state)) p = true := by
    intro p hp
    obtain ⟨n, sp⟩ := p
    have hl2 := sessionLookup_stateOf m n (coerceOut m schema state)
    have hl6 := coerceOut_lookupName m state schema hnd n sp hp
    cases hlook : sessionLookup state (_get_key m n) with
    | none =>
      simp only [hlook] at hl6
      have hnone : sessionLookup (stateOf m (coerceOut m schema state))
          (_get_key m n) = Option.none := by rw [hl2]; exact hl6
      simp [wellTypedAt, hnone]
    | some v =>
      have hwt := hok (n, sp) hp
      simp only [wellTypedAt, hlook] at hwt
      simp only [Bool.and_eq_true] at hwt
      cases hco : coerceParam sp v with
      | error e =>
        rw [hco] at hwt
        exact absurd hwt.1 (by simp [isOkE])
      | ok w =>
        simp only [hlook, hco] at hl6
        have hsome : sessionLookup (stateOf m (coerceOut m schema state))
            (_get_key m n) = some w := by rw [hl2]; exact hl6
        have hnum : (sp.type = CType.int ∨ sp.type = CType.float) →
            ¬(v = PyVal.str "None" ∨ v = PyVal.str "") := by
          intro hty hnull
          have h2 := hwt.2
          rw [decide_eq_true hty, decide_eq_true hnull] at h2
          simp at h2
        have hst := coerceParam_stable sp v w hco hnum
        simp only [wellTypedAt, hsome, hst, Bool.and_eq_true]
        refine ⟨by simp [isOkE], ?_⟩
        by_cases hty : sp.type = CType.int ∨ sp.type = CType.float
        · have hw := coerceParam_ok_not_nullish sp v w hco (hnum hty) hty
          rw [decide_eq_true hty]
          simp [hw]
        · rw [decide_eq_false hty]
          simp
  have hout2 : coerceOut m schema (stateOf m (coerceOut m schema state))
      = coerceOut m schema state := by
    apply coerceOut_congr
    intro p hp
    obtain ⟨n, sp⟩ := p
    have hl2 := sessionLookup_stateOf m n (coerceOut m schema state)
    have hl6 := coerceOut_lookupName m state schema hnd n sp hp
    cases hlook : sessionLookup state (_get_key m n) with
    | none =>
      simp only [hlook] at hl6
      have hnone : sessionLookup (stateOf m (coerceOut m schema state))
          (_get_key m n) = Option.none := by rw [hl2]; exact hl6
      simp [hnone, hlook]
    | some v =>
      have hwt := hok (n, sp) hp
      simp only [wellTypedAt, hlook] at hwt
      simp only [Bool.and_eq_true] at hwt
      cases hco : coerceParam sp v with
      | error e =>
        rw [hco] at hwt
        exact absurd hwt.1 (by simp [isOkE])
      | ok w =>
        simp only [hlook, hco] at hl6
        have hsome : sessionLookup (stateOf m (coerceOut m schema state))
            (_get_key m n) = some w := by rw [hl2]; exact hl6
        have hnum : (sp.type = CType.int ∨ sp.type = CType.float) →
            ¬(v = PyVal.str "None" ∨ v = PyVal.str "") := by
          intro hty hnull
          have h2 := hwt.2
          rw [decide_eq_true hty, decide_eq_true hnull] at h2
          simp at h2
        have hst := coerceParam_stable sp v w hco hnum
        simp [hsome, hlook, hco, hst]
  have := configLoop_ok_formula m (stateOf m (coerceOut m schema state))
    schema [] hok2
  rw [hout2] at this
  simpa [_get_config_from_session_state] using this

/-- Claim C6 witness: the amended theorem at the demonstration schema
covering all five parameter types and its well-typed raw session values. -/
theorem c6_wellTyped_roundtrip_witness :
    _get_config_from_session_state "m" demoSchema demoState
        = Except.ok (coerceOut "m" demoSchema demoState) ∧
    _get_config_from_session_state "m" demoSchema
        (stateOf "m" (coerceOut "m" demoSchema demoState))
      = Except.ok (coerceOut "m" demoSchema demoState) :=
  c6_wellTyped_roundtrip "m" demoSchema demoState (by decide) (by decide)

/-- Claim C10: the key derivation `_get_key` merely concatenates the model
name, a hyphen and the parameter name, so it is not injective: the distinct
pairs (a-b, c) and (a, b-c) produce the same session key a-b-c, hence raw
values collected for one model parameter can collide with another. -/
theorem c10_get_key_not_injective :
    _get_key "a-b" "c" = _get_key "a" "b-c" ∧
    ("a-b", "c") ≠ (("a", "b-c") : String × String) ∧
    _get_key "a-b" "c" = "a-b-c" := by
  refine ⟨rfl, ?_, rfl⟩
  decide

end Subsai
